import Mathlib

/-!
Verification development for the fuse3 kernel-connection component
(`src/raw/connection.rs`) and its helper utilities (`src/helper.rs`).

The Rust source is shallowly embedded: every syscall and external-library
call is an oracle recorded in an environment structure, and each operation
returns its result together with the list of effects it performed on the
world, in order.  Machine integers are modelled as `Nat`/`Int` with
explicit truncation where the source truncates.
-/

deriving instance DecidableEq for Except

namespace Fuse3

/-- `nix::Error` (the error type of the nix crate as matched in
`io_error_from_nix_error`). -/
inductive NixError where
  | sys (errno : Int)
  | unsupportedOperation
  | invalidPath
  | invalidUtf8
deriving DecidableEq

/-- The shapes of `std::io::Error` the connection code constructs or
propagates: raw OS errors, `ErrorKind::Other` with a message, and
`ErrorKind::InvalidInput`. -/
inductive IoError where
  | rawOsError (errno : Int)
  | kindOther (msg : String)
  | invalidInput
deriving DecidableEq

/-- `helper.rs::io_error_from_nix_error`: normalizes a nix error into an
`io::Error`. -/
def ioErrorFromNixError : NixError → IoError
  | .sys errno => .rawOsError errno
  | .unsupportedOperation => .kindOther "unsupported operation"
  | .invalidPath => .invalidInput
  | .invalidUtf8 => .invalidInput

/-! ## `helper.rs` mode/permission conversions

`mode_from_kind_and_perm(kind, perm) = mode_t::from(kind) | perm as u32` and
`perm_from_mode_and_kind(kind, mode) = (mode ^ mode_t::from(kind)) as u16`.
The numeric value `mode_t::from(kind)` of a file kind is produced outside
this file's source (the `FileType` conversion); the functions are therefore
embedded parametrically in that value `kindBits`, which covers every file
kind at once. Casting `u32` to `u16` keeps the low 16 bits. -/

/-- `helper.rs::mode_from_kind_and_perm`, with the kind's mode constant
abstracted as `kindBits`. -/
def mode_from_kind_and_perm (kindBits : Nat) (perm : Nat) : Nat :=
  kindBits ||| perm

/-- `helper.rs::perm_from_mode_and_kind`, with the kind's mode constant
abstracted as `kindBits`. The `as u16` cast is truncation mod `2 ^ 16`. -/
def perm_from_mode_and_kind (kindBits : Nat) (mode : Nat) : Nat :=
  (mode ^^^ kindBits) % 2 ^ 16

lemma lor_xor_cancel_of_disjoint (k p : Nat) (h : k &&& p = 0) :
    (k ||| p) ^^^ k = p := by
  apply Nat.eq_of_testBit_eq
  intro i
  have hb : (k.testBit i && p.testBit i) = false := by
    have h2 := congrArg (fun n => n.testBit i) h
    simpa [Nat.testBit_and] using h2
  simp only [Nat.testBit_xor, Nat.testBit_or]
  cases hk : k.testBit i <;> cases hp : p.testBit i <;> simp_all

/-- C10: on 16-bit permissions whose set bits are disjoint from the kind's
mode bits, extracting the permission from the built mode returns the
original permission; without disjointness the round trip can differ
(witnessed by kind bits `1` and permission `1`). -/
theorem c10_mode_perm_roundtrip :
    (∀ kindBits perm : Nat, perm < 2 ^ 16 → kindBits &&& perm = 0 →
      perm_from_mode_and_kind kindBits (mode_from_kind_and_perm kindBits perm) = perm)
    ∧ perm_from_mode_and_kind 1 (mode_from_kind_and_perm 1 1) ≠ 1 := by
  constructor
  · intro kindBits perm hlt hdisj
    unfold perm_from_mode_and_kind mode_from_kind_and_perm
    rw [lor_xor_cancel_of_disjoint kindBits perm hdisj]
    exact Nat.mod_eq_of_lt hlt
  · decide

/-- Witness for C10 at a concrete file kind and permission: regular-file
bits `0o100000` and permission `0o644`, which are disjoint. -/
theorem c10_mode_perm_roundtrip_witness :
    perm_from_mode_and_kind 32768 (mode_from_kind_and_perm 32768 420) = 420 :=
  c10_mode_perm_roundtrip.1 32768 420 (by decide) (by decide)

/-! ## Connection embedding (`src/raw/connection.rs`)

Both backend variants (`tokio_connection` and `async_std_connection`) are
embedded over one oracle environment `ConnEnv` whose fields give the result
of each syscall / external-library call the code performs.  Every operation
returns its Rust-level result paired with the ordered list of `Effect`s it
issued against the world. -/

/-- Raw file descriptors (`RawFd`); descriptor numbers are non-negative in
every path the code exercises. -/
abbrev Fd := Nat

/-- A control message as matched by the code:
`ControlMessageOwned::ScmRights(fds)` or anything else. -/
inductive ControlMessage where
  | scmRights (fds : List Fd)
  | otherCmsg
deriving DecidableEq

/-- The message returned by `socket::recvmsg`: the code only inspects the
iterator of control messages (`msg.cmsgs()`), embedded as a list. -/
structure RecvMsg where
  cmsgs : List ControlMessage
deriving DecidableEq

/-- One effect on the outside world, in program order. -/
inductive Effect where
  | socketpairCall
  | whichCall (name : String)
  | spawnCall (bin : String) (envVar : String) (envVal : String) (args : List String)
  | waitCall
  | recvmsgCall (fd : Fd)
  | closeCall (fd : Fd)
  | openDevFuseCall
  | fcntlGetFlCall (fd : Fd)
  | fcntlSetFlCall (fd : Fd) (flags : Nat)
  | registerCall (fd : Fd)
  | readSyscall (fd : Fd)
  | writeSyscall (fd : Fd)
  | readinessWait (fd : Fd)
deriving DecidableEq

/-- Oracle environment: the outcome each external call would produce. -/
structure ConnEnv where
  /-- `socket::socketpair(Unix, SeqPacket, None, empty)` -/
  socketpair : Except NixError (Fd × Fd)
  /-- `which::which("fusermount3")`; the error is kept as its debug text. -/
  whichFusermount : Except String String
  /-- `Command::spawn` inside `spawn_blocking` -/
  spawnChild : Except IoError Unit
  /-- `child.wait()`, reduced to the `success()` flag of the exit status -/
  waitStatus : Except IoError Bool
  /-- `socket::recvmsg(fd1, ..)` -/
  recv : Except NixError RecvMsg
  /-- `unistd::close fd` -/
  closeFd : Fd → Except NixError Unit
  /-- `fcntl(fd, F_GETFL)` -/
  fcntlGetFl : Fd → Except NixError Nat
  /-- `fcntl(fd, F_SETFL(flags))` -/
  fcntlSetFl : Fd → Nat → Except NixError Unit
  /-- reactor registration: `AsyncFd::new(fd)` (tokio) / `Async::new(fd)`
  (async-std) -/
  register : Fd → Except IoError Unit
  /-- opening `/dev/fuse` read+write, reduced to the raw fd -/
  openDevFuse : Except IoError Fd

/-- The `FuseConnection` value, reduced to the raw handle it owns (the two
mutexes hold no data). -/
structure FuseConnection where
  fd : Fd
deriving DecidableEq

/-- `OFlag::O_NONBLOCK` on Linux. -/
def oNonblock : Nat := 2048

/-- `tokio_connection::FuseConnection::set_fd_non_blocking`: query the
status flags, OR in `O_NONBLOCK`, write back.  (`OFlag::from_bits_truncate`
is the identity on the defined flag bits `F_GETFL` returns.) -/
def setFdNonBlocking (env : ConnEnv) (fd : Fd) :
    Except IoError Unit × List Effect :=
  match env.fcntlGetFl fd with
  | .error e => (.error (ioErrorFromNixError e), [.fcntlGetFlCall fd])
  | .ok flags =>
    match env.fcntlSetFl fd (flags ||| oNonblock) with
    | .error e =>
      (.error (ioErrorFromNixError e),
       [.fcntlGetFlCall fd, .fcntlSetFlCall fd (flags ||| oNonblock)])
    | .ok _ =>
      (.ok (), [.fcntlGetFlCall fd, .fcntlSetFlCall fd (flags ||| oNonblock)])

/-- `tokio_connection::FuseConnection::new`: open `/dev/fuse`, set the fd
non-blocking, register it with the reactor. -/
def tokioNew (env : ConnEnv) : Except IoError FuseConnection × List Effect :=
  match env.openDevFuse with
  | .error e => (.error e, [.openDevFuseCall])
  | .ok fd =>
    match setFdNonBlocking env fd with
    | (.error e, t) => (.error e, .openDevFuseCall :: t)
    | (.ok _, t) =>
      match env.register fd with
      | .error e => (.error e, .openDevFuseCall :: (t ++ [.registerCall fd]))
      | .ok _ => (.ok ⟨fd⟩, .openDevFuseCall :: (t ++ [.registerCall fd]))

/-- `async_std_connection::FuseConnection::new`: open `/dev/fuse` and wrap
the fd with `Async::new` — no explicit flag manipulation in this code. -/
def asyncStdNew (env : ConnEnv) : Except IoError FuseConnection × List Effect :=
  match env.openDevFuse with
  | .error e => (.error e, [.openDevFuseCall])
  | .ok fd =>
    match env.register fd with
    | .error e => (.error e, [.openDevFuseCall, .registerCall fd])
    | .ok _ => (.ok ⟨fd⟩, [.openDevFuseCall, .registerCall fd])

/-- The receive step run on the blocking context in both
`new_with_unprivileged` variants: `recvmsg` on `fd1`, then extract the
first transferred descriptor from the first control message.
(`fds.is_empty()` in the tokio variant and `fds.len() < 1` in the
async-std variant are the same test.) -/
def recvFuseFd (env : ConnEnv) : Except IoError Fd :=
  match env.recv with
  | .error e => .error (ioErrorFromNixError e)
  | .ok msg =>
    match msg.cmsgs.head? with
    | some (.scmRights fds) =>
      match fds with
      | [] => .error (.kindOther "no fuse fd")
      | f :: _ => .ok f
    | _ => .error (.kindOther "get fuse fd failed")

/-- `tokio_connection::FuseConnection::new_with_unprivileged`.  The option
string is the output of `MountOptions::build_with_unprivileged` (assembled
outside this source file) and is passed through opaquely, as is the mount
path. -/
def tokioNewWithUnprivileged (env : ConnEnv) (options mountPath : String) :
    Except IoError FuseConnection × List Effect :=
  match env.socketpair with
  | .error e => (.error (ioErrorFromNixError e), [.socketpairCall])
  | .ok (fd0, fd1) =>
    match env.whichFusermount with
    | .error e =>
      (.error (.kindOther ("find fusermount binary failed " ++ e)),
       [.socketpairCall, .whichCall "fusermount3"])
    | .ok binaryPath =>
      let t0 : List Effect :=
        [.socketpairCall, .whichCall "fusermount3",
         .spawnCall binaryPath "_FUSE_COMMFD" (toString fd0)
           ["-o", options, mountPath]]
      match env.spawnChild with
      | .error e => (.error e, t0)
      | .ok _ =>
        match env.waitStatus with
        | .error e => (.error e, t0 ++ [.waitCall])
        | .ok success =>
          if success = false then
            (.error (.kindOther "fusermount run failed"), t0 ++ [.waitCall])
          else
            let t1 := t0 ++ [Effect.waitCall, .recvmsgCall fd1]
            match recvFuseFd env with
            | .error e => (.error e, t1)
            | .ok fd =>
              match env.closeFd fd0 with
              | .error e =>
                (.error (ioErrorFromNixError e), t1 ++ [.closeCall fd0])
              | .ok _ =>
                match env.closeFd fd1 with
                | .error e =>
                  (.error (ioErrorFromNixError e),
                   t1 ++ [.closeCall fd0, .closeCall fd1])
                | .ok _ =>
                  match setFdNonBlocking env fd with
                  | (.error e, t) =>
                    (.error e, t1 ++ [.closeCall fd0, .closeCall fd1] ++ t)
                  | (.ok _, t) =>
                    match env.register fd with
                    | .error e =>
                      (.error e,
                       t1 ++ [.closeCall fd0, .closeCall fd1] ++ t
                          ++ [.registerCall fd])
                    | .ok _ =>
                      (.ok ⟨fd⟩,
                       t1 ++ [.closeCall fd0, .closeCall fd1] ++ t
                          ++ [.registerCall fd])

/-- `async_std_connection::FuseConnection::new_with_unprivileged`: same
handshake, but the received fd is wrapped with `Async::new` directly — no
explicit `set_fd_non_blocking` step exists in this variant. -/
def asyncStdNewWithUnprivileged (env : ConnEnv) (options mountPath : String) :
    Except IoError FuseConnection × List Effect :=
  match env.socketpair with
  | .error e => (.error (ioErrorFromNixError e), [.socketpairCall])
  | .ok (fd0, fd1) =>
    match env.whichFusermount with
    | .error e =>
      (.error (.kindOther ("find fusermount binary failed " ++ e)),
       [.socketpairCall, .whichCall "fusermount3"])
    | .ok binaryPath =>
      let t0 : List Effect :=
        [.socketpairCall, .whichCall "fusermount3",
         .spawnCall binaryPath "_FUSE_COMMFD" (toString fd0)
           ["-o", options, mountPath]]
      match env.spawnChild with
      | .error e => (.error e, t0)
      | .ok _ =>
        match env.waitStatus with
        | .error e => (.error e, t0 ++ [.waitCall])
        | .ok success =>
          if success = false then
            (.error (.kindOther "fusermount run failed"), t0 ++ [.waitCall])
          else
            let t1 := t0 ++ [Effect.waitCall, .recvmsgCall fd1]
            match recvFuseFd env with
            | .error e => (.error e, t1)
            | .ok fd =>
              match env.closeFd fd0 with
              | .error e =>
                (.error (ioErrorFromNixError e), t1 ++ [.closeCall fd0])
              | .ok _ =>
                match env.closeFd fd1 with
                | .error e =>
                  (.error (ioErrorFromNixError e),
                   t1 ++ [.closeCall fd0, .closeCall fd1])
                | .ok _ =>
                  match env.register fd with
                  | .error e =>
                    (.error e,
                     t1 ++ [.closeCall fd0, .closeCall fd1, .registerCall fd])
                  | .ok _ =>
                    (.ok ⟨fd⟩,
                     t1 ++ [.closeCall fd0, .closeCall fd1, .registerCall fd])

/-- `Drop for FuseConnection` (tokio variant): best-effort close of the
owned handle. -/
def tokioDrop (c : FuseConnection) : List Effect := [.closeCall c.fd]

/-- `Drop for FuseConnection` (async-std variant): best-effort close of the
owned handle. -/
def asyncStdDrop (c : FuseConnection) : List Effect := [.closeCall c.fd]

/-! ## The readiness-driven read/write loops

Each loop iteration consumes one `IoIter` oracle: the outcome the readiness
wait would have, and the outcome the read/write syscall would have if
attempted in that iteration.  The list's length bounds how many iterations
are modelled; `none` means the loop was still retrying when the oracles ran
out (it never means a value was returned). -/

/-- Per-iteration oracle for a read/write loop. -/
structure IoIter where
  readiness : Except IoError Unit
  syscall : Except NixError Nat
deriving DecidableEq

/-- `EAGAIN`/`EWOULDBLOCK` on Linux; `io::ErrorKind::WouldBlock` is exactly
this raw OS error. -/
def eAGAIN : Int := 11

/-- Whether an `io::Error` has kind `WouldBlock` (what `AsyncFd::try_io`
and `Async::read_with`/`write_with` test for). -/
def isWouldBlock : IoError → Bool
  | .rawOsError errno => errno == eAGAIN
  | _ => false

/-- `tokio_connection::FuseConnection::read` after taking the read mutex:
wait until readable (`?` on a wait failure), attempt one `unistd::read`;
`try_io` retries when the attempt reports would-block, otherwise the
attempt's outcome is returned. -/
def tokioReadLoop (fd : Fd) : List IoIter →
    Option (Except IoError Nat × List Effect)
  | [] => none
  | it :: rest =>
    match it.readiness with
    | .error e => some (.error e, [.readinessWait fd])
    | .ok _ =>
      match it.syscall with
      | .ok n => some (.ok n, [.readinessWait fd, .readSyscall fd])
      | .error e =>
        if isWouldBlock (ioErrorFromNixError e) then
          match tokioReadLoop fd rest with
          | none => none
          | some (r, t) =>
            some (r, .readinessWait fd :: .readSyscall fd :: t)
        else
          some (.error (ioErrorFromNixError e),
                [.readinessWait fd, .readSyscall fd])

/-- `tokio_connection::FuseConnection::write` after taking the write mutex.
The buffer is passed through to the syscall unexamined, so only its length
appears here (and is never inspected by the loop itself). -/
def tokioWriteLoop (fd : Fd) (bufLen : Nat) : List IoIter →
    Option (Except IoError Nat × List Effect)
  | [] => none
  | it :: rest =>
    match it.readiness with
    | .error e => some (.error e, [.readinessWait fd])
    | .ok _ =>
      match it.syscall with
      | .ok n => some (.ok n, [.readinessWait fd, .writeSyscall fd])
      | .error e =>
        if isWouldBlock (ioErrorFromNixError e) then
          match tokioWriteLoop fd bufLen rest with
          | none => none
          | some (r, t) =>
            some (r, .readinessWait fd :: .writeSyscall fd :: t)
        else
          some (.error (ioErrorFromNixError e),
                [.readinessWait fd, .writeSyscall fd])

/-- `async_std_connection::FuseConnection::read` after taking the read
mutex: `Async::read_with` attempts the syscall first and waits for
readiness only after a would-block outcome, then retries. -/
def asyncStdReadLoop (fd : Fd) : List IoIter →
    Option (Except IoError Nat × List Effect)
  | [] => none
  | it :: rest =>
    match it.syscall with
    | .ok n => some (.ok n, [.readSyscall fd])
    | .error e =>
      if isWouldBlock (ioErrorFromNixError e) then
        match it.readiness with
        | .error e2 => some (.error e2, [.readSyscall fd, .readinessWait fd])
        | .ok _ =>
          match asyncStdReadLoop fd rest with
          | none => none
          | some (r, t) =>
            some (r, .readSyscall fd :: .readinessWait fd :: t)
      else
        some (.error (ioErrorFromNixError e), [.readSyscall fd])

/-- `async_std_connection::FuseConnection::write` after taking the write
mutex (`Async::write_with`). -/
def asyncStdWriteLoop (fd : Fd) (bufLen : Nat) : List IoIter →
    Option (Except IoError Nat × List Effect)
  | [] => none
  | it :: rest =>
    match it.syscall with
    | .ok n => some (.ok n, [.writeSyscall fd])
    | .error e =>
      if isWouldBlock (ioErrorFromNixError e) then
        match it.readiness with
        | .error e2 => some (.error e2, [.writeSyscall fd, .readinessWait fd])
        | .ok _ =>
          match asyncStdWriteLoop fd bufLen rest with
          | none => none
          | some (r, t) =>
            some (r, .writeSyscall fd :: .readinessWait fd :: t)
      else
        some (.error (ioErrorFromNixError e), [.writeSyscall fd])

/-! ## Direction gates (concurrency model)

`FuseConnection` holds two independent `Mutex<()>` fields, `read` and
`write`.  `read()` takes `self.read.lock()` for the whole call and issues
its read syscalls only while holding that guard; `write()` does the same
with `self.write` lock.  The model below is the induced transition system:
a task of a direction waits, acquires its own direction's lock (possible
exactly when that lock is free), runs its locked section (where all of the
call's syscalls happen), and releases. -/

/-- The I/O direction of a caller, naming which of the two `Mutex<()>`
fields it locks. -/
inductive Dir where
  | readDir
  | writeDir
deriving DecidableEq

/-- Where a task is in its call: before `lock()`, holding the guard
(syscalls happen only here), or after the guard is dropped. -/
inductive Phase where
  | waiting
  | critical
  | done
deriving DecidableEq

/-- Global state: each task's direction and phase, plus the holder (if any)
of each of the two mutexes. -/
structure GateSys where
  tasks : Nat → Dir × Phase
  readLock : Option Nat
  writeLock : Option Nat

/-- The mutex of a direction. -/
def lockOf (s : GateSys) : Dir → Option Nat
  | .readDir => s.readLock
  | .writeDir => s.writeLock

/-- Update one task's phase. -/
def setPhase (s : GateSys) (i : Nat) (p : Phase) : GateSys :=
  { s with tasks := fun j => if j = i then ((s.tasks j).1, p) else s.tasks j }

/-- Update one direction's mutex holder. -/
def setLock (s : GateSys) : Dir → Option Nat → GateSys
  | .readDir, v => { s with readLock := v }
  | .writeDir, v => { s with writeLock := v }

/-- One scheduler step: a waiting task acquires its own direction's free
mutex, or a task holding its mutex finishes and releases it.  Acquisition
tests only the task's own direction's lock — the other direction never
appears in the guard. -/
inductive GateStep : GateSys → GateSys → Prop where
  | acquire (s : GateSys) (i : Nat) :
      (s.tasks i).2 = .waiting →
      lockOf s (s.tasks i).1 = none →
      GateStep s (setLock (setPhase s i .critical) (s.tasks i).1 (some i))
  | release (s : GateSys) (i : Nat) :
      (s.tasks i).2 = .critical →
      GateStep s (setLock (setPhase s i .done) (s.tasks i).1 none)

/-- Initial state of a connection's gates: every caller is before its
`lock()` and both mutexes are free. -/
def initGateSys (dirs : Nat → Dir) : GateSys :=
  { tasks := fun i => (dirs i, .waiting), readLock := none, writeLock := none }

/-- States the scheduler can reach from the initial state. -/
def GateReachable (dirs : Nat → Dir) (s : GateSys) : Prop :=
  Relation.ReflTransGen GateStep (initGateSys dirs) s

/-- Gate invariant: whoever is in its locked section holds its direction's
mutex. -/
def GateInv (s : GateSys) : Prop :=
  ∀ i, (s.tasks i).2 = .critical → lockOf s (s.tasks i).1 = some i

lemma lockOf_setLock_same (s : GateSys) (d : Dir) (v : Option Nat) :
    lockOf (setLock s d v) d = v := by
  cases d <;> rfl

lemma lockOf_setLock_ne (s : GateSys) (d d2 : Dir) (v : Option Nat)
    (h : d2 ≠ d) : lockOf (setLock s d v) d2 = lockOf s d2 := by
  cases d <;> cases d2 <;> simp_all [setLock, lockOf]

lemma lockOf_setPhase (s : GateSys) (i : Nat) (p : Phase) (d : Dir) :
    lockOf (setPhase s i p) d = lockOf s d := by
  cases d <;> rfl

lemma tasks_setLock (s : GateSys) (d : Dir) (v : Option Nat) (j : Nat) :
    (setLock s d v).tasks j = s.tasks j := by
  cases d <;> rfl

lemma tasks_setPhase_same (s : GateSys) (i : Nat) (p : Phase) :
    (setPhase s i p).tasks i = ((s.tasks i).1, p) := by
  simp [setPhase]

lemma tasks_setPhase_ne (s : GateSys) (i : Nat) (p : Phase) (j : Nat)
    (h : j ≠ i) : (setPhase s i p).tasks j = s.tasks j := by
  simp [setPhase, h]

lemma gateInv_init (dirs : Nat → Dir) : GateInv (initGateSys dirs) := by
  intro i h
  simp [initGateSys] at h

lemma gateInv_step {s s2 : GateSys} (hinv : GateInv s)
    (hstep : GateStep s s2) : GateInv s2 := by
  cases hstep with
  | acquire i hw hfree =>
    intro j hj
    rw [tasks_setLock] at hj ⊢
    by_cases hji : j = i
    · subst hji
      rw [tasks_setPhase_same] at hj ⊢
      rw [lockOf_setLock_same]
    · rw [tasks_setPhase_ne _ i _ j hji] at hj ⊢
      have hlj := hinv j hj
      have hne : (s.tasks j).1 ≠ (s.tasks i).1 := by
        intro hd
        rw [hd, hfree] at hlj
        exact Option.noConfusion hlj
      rw [lockOf_setLock_ne _ _ _ _ hne, lockOf_setPhase]
      exact hlj
  | release i hc =>
    intro j hj
    rw [tasks_setLock] at hj ⊢
    by_cases hji : j = i
    · subst hji
      rw [tasks_setPhase_same] at hj
      simp at hj
    · rw [tasks_setPhase_ne _ i _ j hji] at hj ⊢
      have hlj := hinv j hj
      have hli := hinv i hc
      have hne : (s.tasks j).1 ≠ (s.tasks i).1 := by
        intro hd
        rw [hd, hli] at hlj
        exact hji (Option.some.inj hlj).symm
      rw [lockOf_setLock_ne _ _ _ _ hne, lockOf_setPhase]
      exact hlj

lemma gateInv_reachable {dirs : Nat → Dir} {s : GateSys}
    (h : GateReachable dirs s) : GateInv s := by
  induction h with
  | refl => exact gateInv_init dirs
  | tail _ hstep ih => exact gateInv_step ih hstep

/-- C8: in every reachable state of a connection's direction gates, two
tasks of the same direction are never both inside their locked section
(hence at most one read syscall, and at most one write syscall, is in
flight at a time), and a waiting task can acquire whenever its own
direction's mutex is free — the guard never consults the other direction's
mutex, so a read is never delayed by the write gate or vice versa. -/
theorem c8_direction_gates (dirs : Nat → Dir) (s : GateSys)
    (h : GateReachable dirs s) :
    (∀ i j, (s.tasks i).2 = .critical → (s.tasks j).2 = .critical →
      (s.tasks i).1 = (s.tasks j).1 → i = j)
    ∧ (∀ i, (s.tasks i).2 = .waiting → lockOf s (s.tasks i).1 = none →
        GateStep s (setLock (setPhase s i .critical) (s.tasks i).1 (some i))) := by
  have hinv := gateInv_reachable h
  refine ⟨fun i j hi hj hd => ?_, fun i hw hfree => GateStep.acquire s i hw hfree⟩
  have h1 := hinv i hi
  have h2 := hinv j hj
  rw [hd, h2] at h1
  exact (Option.some.inj h1).symm

/-! ## Loop characterizations -/

/-- Every readiness wait in the oracle list succeeds. -/
def allReadinessOk (iters : List IoIter) : Prop :=
  ∀ it ∈ iters, it.readiness = .ok ()

/-- No readiness wait fails with a would-block-shaped error (readiness
failures are reactor errors, not `EAGAIN`). -/
def readinessNeverWouldBlock (iters : List IoIter) : Prop :=
  ∀ it ∈ iters, ∀ e, it.readiness = .error e → isWouldBlock e = false

/-- How a syscall outcome surfaces as the call's result. -/
def outcomeToResult : Except NixError Nat → Except IoError Nat
  | .ok n => .ok n
  | .error e => .error (ioErrorFromNixError e)

/-- The first syscall outcome of the oracle list that is not would-block,
if any. -/
def firstNonWouldBlock : List IoIter → Option (Except NixError Nat)
  | [] => none
  | it :: rest =>
    match it.syscall with
    | .ok n => some (.ok n)
    | .error e =>
      if isWouldBlock (ioErrorFromNixError e) then firstNonWouldBlock rest
      else some (.error e)

/-- The number of leading would-block syscall outcomes. -/
def leadingWouldBlocks : List IoIter → Nat
  | [] => 0
  | it :: rest =>
    match it.syscall with
    | .ok _ => 0
    | .error e =>
      if isWouldBlock (ioErrorFromNixError e) then leadingWouldBlocks rest + 1
      else 0

lemma allReadinessOk_tail {it : IoIter} {rest : List IoIter}
    (h : allReadinessOk (it :: rest)) :
    it.readiness = .ok () ∧ allReadinessOk rest :=
  ⟨h it (List.mem_cons_self it rest),
   fun it2 hm => h it2 (List.mem_cons_of_mem it hm)⟩

lemma readinessNeverWouldBlock_tail {it : IoIter} {rest : List IoIter}
    (h : readinessNeverWouldBlock (it :: rest)) :
    (∀ e, it.readiness = .error e → isWouldBlock e = false)
      ∧ readinessNeverWouldBlock rest :=
  ⟨fun e => h it (List.mem_cons_self it rest) e,
   fun it2 hm e => h it2 (List.mem_cons_of_mem it hm) e⟩

/-- Under successful readiness waits the tokio read loop returns exactly
the first non-would-block syscall outcome. -/
lemma tokioReadLoop_result (fd : Fd) (iters : List IoIter)
    (h : allReadinessOk iters) :
    (tokioReadLoop fd iters).map Prod.fst
      = (firstNonWouldBlock iters).map outcomeToResult := by
  induction iters with
  | nil => rfl
  | cons it rest ih =>
    obtain ⟨hr, htail⟩ := allReadinessOk_tail h
    rcases hs : it.syscall with e | n
    · by_cases hwb : isWouldBlock (ioErrorFromNixError e) = true
      · simp only [tokioReadLoop, firstNonWouldBlock, hr, hs, hwb, if_true]
        rcases hrec : tokioReadLoop fd rest with _ | ⟨r, t⟩ <;>
          simpa [hrec] using ih htail
      · simp [tokioReadLoop, firstNonWouldBlock, hr, hs, hwb, outcomeToResult]
    · simp [tokioReadLoop, firstNonWouldBlock, hr, hs, outcomeToResult]

/-- Under successful readiness waits the tokio write loop returns exactly
the first non-would-block syscall outcome (independent of the buffer). -/
lemma tokioWriteLoop_result (fd : Fd) (bufLen : Nat) (iters : List IoIter)
    (h : allReadinessOk iters) :
    (tokioWriteLoop fd bufLen iters).map Prod.fst
      = (firstNonWouldBlock iters).map outcomeToResult := by
  induction iters with
  | nil => rfl
  | cons it rest ih =>
    obtain ⟨hr, htail⟩ := allReadinessOk_tail h
    rcases hs : it.syscall with e | n
    · by_cases hwb : isWouldBlock (ioErrorFromNixError e) = true
      · simp only [tokioWriteLoop, firstNonWouldBlock, hr, hs, hwb, if_true]
        rcases hrec : tokioWriteLoop fd bufLen rest with _ | ⟨r, t⟩ <;>
          simpa [hrec] using ih htail
      · simp [tokioWriteLoop, firstNonWouldBlock, hr, hs, hwb, outcomeToResult]
    · simp [tokioWriteLoop, firstNonWouldBlock, hr, hs, outcomeToResult]

/-- Under successful readiness waits the async-std read loop returns
exactly the first non-would-block syscall outcome. -/
lemma asyncStdReadLoop_result (fd : Fd) (iters : List IoIter)
    (h : allReadinessOk iters) :
    (asyncStdReadLoop fd iters).map Prod.fst
      = (firstNonWouldBlock iters).map outcomeToResult := by
  induction iters with
  | nil => rfl
  | cons it rest ih =>
    obtain ⟨hr, htail⟩ := allReadinessOk_tail h
    rcases hs : it.syscall with e | n
    · by_cases hwb : isWouldBlock (ioErrorFromNixError e) = true
      · simp only [asyncStdReadLoop, firstNonWouldBlock, hr, hs, hwb, if_true]
        rcases hrec : asyncStdReadLoop fd rest with _ | ⟨r, t⟩ <;>
          simpa [hrec] using ih htail
      · simp [asyncStdReadLoop, firstNonWouldBlock, hr, hs, hwb, outcomeToResult]
    · simp [asyncStdReadLoop, firstNonWouldBlock, hr, hs, outcomeToResult]

/-- Under successful readiness waits the async-std write loop returns
exactly the first non-would-block syscall outcome (independent of the
buffer). -/
lemma asyncStdWriteLoop_result (fd : Fd) (bufLen : Nat) (iters : List IoIter)
    (h : allReadinessOk iters) :
    (asyncStdWriteLoop fd bufLen iters).map Prod.fst
      = (firstNonWouldBlock iters).map outcomeToResult := by
  induction iters with
  | nil => rfl
  | cons it rest ih =>
    obtain ⟨hr, htail⟩ := allReadinessOk_tail h
    rcases hs : it.syscall with e | n
    · by_cases hwb : isWouldBlock (ioErrorFromNixError e) = true
      · simp only [asyncStdWriteLoop, firstNonWouldBlock, hr, hs, hwb, if_true]
        rcases hrec : asyncStdWriteLoop fd bufLen rest with _ | ⟨r, t⟩ <;>
          simpa [hrec] using ih htail
      · simp [asyncStdWriteLoop, firstNonWouldBlock, hr, hs, hwb, outcomeToResult]
    · simp [asyncStdWriteLoop, firstNonWouldBlock, hr, hs, outcomeToResult]

/-- The tokio read loop never returns a would-block error (provided the
readiness mechanism itself never fails with a would-block-shaped error). -/
lemma tokioReadLoop_no_wouldblock (fd : Fd) (iters : List IoIter)
    (h : readinessNeverWouldBlock iters) :
    ∀ r t e, tokioReadLoop fd iters = some (r, t) → r = .error e →
      isWouldBlock e = false := by
  induction iters with
  | nil => intro r t e heq _; simp [tokioReadLoop] at heq
  | cons it rest ih =>
    obtain ⟨hhead, htail⟩ := readinessNeverWouldBlock_tail h
    intro r t e heq hre
    subst hre
    rcases hr : it.readiness with e1 | u
    · simp only [tokioReadLoop, hr, Option.some.injEq, Prod.mk.injEq,
        Except.error.injEq] at heq
      rcases heq with ⟨rfl, -⟩
      exact hhead _ hr
    · rcases hs : it.syscall with e1 | n
      · by_cases hwb : isWouldBlock (ioErrorFromNixError e1) = true
        · simp only [tokioReadLoop, hr, hs, hwb, if_true] at heq
          rcases hrec : tokioReadLoop fd rest with _ | ⟨r0, t0⟩
          · rw [hrec] at heq; exact absurd heq (by simp)
          · rw [hrec] at heq
            simp only [Option.some.injEq, Prod.mk.injEq] at heq
            obtain ⟨he, -⟩ := heq
            exact ih htail r0 t0 _ hrec he
        · simp only [tokioReadLoop, hr, hs, hwb, if_false, Option.some.injEq,
            Prod.mk.injEq, Except.error.injEq] at heq
          rcases heq with ⟨rfl, -⟩
          exact eq_false_of_ne_true hwb
      · simp only [tokioReadLoop, hr, hs, Option.some.injEq, Prod.mk.injEq] at heq
        exact absurd heq.1 (by simp)

/-- The tokio write loop never returns a would-block error. -/
lemma tokioWriteLoop_no_wouldblock (fd : Fd) (bufLen : Nat)
    (iters : List IoIter) (h : readinessNeverWouldBlock iters) :
    ∀ r t e, tokioWriteLoop fd bufLen iters = some (r, t) → r = .error e →
      isWouldBlock e = false := by
  induction iters with
  | nil => intro r t e heq _; simp [tokioWriteLoop] at heq
  | cons it rest ih =>
    obtain ⟨hhead, htail⟩ := readinessNeverWouldBlock_tail h
    intro r t e heq hre
    subst hre
    rcases hr : it.readiness with e1 | u
    · simp only [tokioWriteLoop, hr, Option.some.injEq, Prod.mk.injEq,
        Except.error.injEq] at heq
      rcases heq with ⟨rfl, -⟩
      exact hhead _ hr
    · rcases hs : it.syscall with e1 | n
      · by_cases hwb : isWouldBlock (ioErrorFromNixError e1) = true
        · simp only [tokioWriteLoop, hr, hs, hwb, if_true] at heq
          rcases hrec : tokioWriteLoop fd bufLen rest with _ | ⟨r0, t0⟩
          · rw [hrec] at heq; exact absurd heq (by simp)
          · rw [hrec] at heq
            simp only [Option.some.injEq, Prod.mk.injEq] at heq
            obtain ⟨he, -⟩ := heq
            exact ih htail r0 t0 _ hrec he
        · simp only [tokioWriteLoop, hr, hs, hwb, if_false, Option.some.injEq,
            Prod.mk.injEq, Except.error.injEq] at heq
          rcases heq with ⟨rfl, -⟩
          exact eq_false_of_ne_true hwb
      · simp only [tokioWriteLoop, hr, hs, Option.some.injEq, Prod.mk.injEq] at heq
        exact absurd heq.1 (by simp)

/-- The async-std read loop never returns a would-block error. -/
lemma asyncStdReadLoop_no_wouldblock (fd : Fd) (iters : List IoIter)
    (h : readinessNeverWouldBlock iters) :
    ∀ r t e, asyncStdReadLoop fd iters = some (r, t) → r = .error e →
      isWouldBlock e = false := by
  induction iters with
  | nil => intro r t e heq _; simp [asyncStdReadLoop] at heq
  | cons it rest ih =>
    obtain ⟨hhead, htail⟩ := readinessNeverWouldBlock_tail h
    intro r t e heq hre
    subst hre
    rcases hs : it.syscall with e1 | n
    · by_cases hwb : isWouldBlock (ioErrorFromNixError e1) = true
      · rcases hr : it.readiness with e2 | u
        · simp only [asyncStdReadLoop, hr, hs, hwb, if_true, Option.some.injEq,
            Prod.mk.injEq,
            Except.error.injEq] at heq
          rcases heq with ⟨rfl, -⟩
          exact hhead _ hr
        · simp only [asyncStdReadLoop, hr, hs, hwb, if_true] at heq
          rcases hrec : asyncStdReadLoop fd rest with _ | ⟨r0, t0⟩
          · rw [hrec] at heq; exact absurd heq (by simp)
          · rw [hrec] at heq
            simp only [Option.some.injEq, Prod.mk.injEq] at heq
            obtain ⟨he, -⟩ := heq
            exact ih htail r0 t0 _ hrec he
      · simp only [asyncStdReadLoop, hs, hwb, if_false, Option.some.injEq,
          Prod.mk.injEq, Except.error.injEq] at heq
        rcases heq with ⟨rfl, -⟩
        exact eq_false_of_ne_true hwb
    · simp only [asyncStdReadLoop, hs, Option.some.injEq, Prod.mk.injEq] at heq
      exact absurd heq.1 (by simp)

/-- The async-std write loop never returns a would-block error. -/
lemma asyncStdWriteLoop_no_wouldblock (fd : Fd) (bufLen : Nat)
    (iters : List IoIter) (h : readinessNeverWouldBlock iters) :
    ∀ r t e, asyncStdWriteLoop fd bufLen iters = some (r, t) → r = .error e →
      isWouldBlock e = false := by
  induction iters with
  | nil => intro r t e heq _; simp [asyncStdWriteLoop] at heq
  | cons it rest ih =>
    obtain ⟨hhead, htail⟩ := readinessNeverWouldBlock_tail h
    intro r t e heq hre
    subst hre
    rcases hs : it.syscall with e1 | n
    · by_cases hwb : isWouldBlock (ioErrorFromNixError e1) = true
      · rcases hr : it.readiness with e2 | u
        · simp only [asyncStdWriteLoop, hr, hs, hwb, if_true, Option.some.injEq,
            Prod.mk.injEq,
            Except.error.injEq] at heq
          rcases heq with ⟨rfl, -⟩
          exact hhead _ hr
        · simp only [asyncStdWriteLoop, hr, hs, hwb, if_true] at heq
          rcases hrec : asyncStdWriteLoop fd bufLen rest with _ | ⟨r0, t0⟩
          · rw [hrec] at heq; exact absurd heq (by simp)
          · rw [hrec] at heq
            simp only [Option.some.injEq, Prod.mk.injEq] at heq
            obtain ⟨he, -⟩ := heq
            exact ih htail r0 t0 _ hrec he
      · simp only [asyncStdWriteLoop, hs, hwb, if_false, Option.some.injEq,
          Prod.mk.injEq, Except.error.injEq] at heq
        rcases heq with ⟨rfl, -⟩
        exact eq_false_of_ne_true hwb
    · simp only [asyncStdWriteLoop, hs, Option.some.injEq, Prod.mk.injEq] at heq
      exact absurd heq.1 (by simp)

/-- Syscall/wait counts for a completed tokio read call: one syscall and
one wait per iteration, one more than the would-block outcomes. -/
lemma tokioReadLoop_counts (fd : Fd) (iters : List IoIter)
    (h : allReadinessOk iters) :
    ∀ r t, tokioReadLoop fd iters = some (r, t) →
      t.count (Effect.readSyscall fd) = leadingWouldBlocks iters + 1
      ∧ t.count (Effect.readinessWait fd) = leadingWouldBlocks iters + 1 := by
  induction iters with
  | nil => intro r t heq; simp [tokioReadLoop] at heq
  | cons it rest ih =>
    obtain ⟨hr, htail⟩ := allReadinessOk_tail h
    intro r t heq
    rcases hs : it.syscall with e | n
    · by_cases hwb : isWouldBlock (ioErrorFromNixError e) = true
      · simp only [tokioReadLoop, hr, hs, hwb, if_true] at heq
        rcases hrec : tokioReadLoop fd rest with _ | ⟨r0, t0⟩
        · rw [hrec] at heq; exact absurd heq (by simp)
        · rw [hrec] at heq
          simp only [Option.some.injEq, Prod.mk.injEq] at heq
          obtain ⟨-, ht⟩ := heq
          obtain ⟨h1, h2⟩ := ih htail r0 t0 hrec
          subst ht
          constructor
          · simp [List.count_cons, h1, leadingWouldBlocks, hs, hwb]
          · simp [List.count_cons, h2, leadingWouldBlocks, hs, hwb]
      · simp only [tokioReadLoop, hr, hs, hwb, Bool.false_eq_true, if_false,
          Option.some.injEq, Prod.mk.injEq] at heq
        obtain ⟨-, ht⟩ := heq
        subst ht
        constructor <;> simp [List.count_cons, leadingWouldBlocks, hs, hwb]
    · simp only [tokioReadLoop, hr, hs, Option.some.injEq, Prod.mk.injEq] at heq
      obtain ⟨-, ht⟩ := heq
      subst ht
      constructor <;> simp [List.count_cons, leadingWouldBlocks, hs]

/-- Syscall/wait counts for a completed tokio write call. -/
lemma tokioWriteLoop_counts (fd : Fd) (bufLen : Nat) (iters : List IoIter)
    (h : allReadinessOk iters) :
    ∀ r t, tokioWriteLoop fd bufLen iters = some (r, t) →
      t.count (Effect.writeSyscall fd) = leadingWouldBlocks iters + 1
      ∧ t.count (Effect.readinessWait fd) = leadingWouldBlocks iters + 1 := by
  induction iters with
  | nil => intro r t heq; simp [tokioWriteLoop] at heq
  | cons it rest ih =>
    obtain ⟨hr, htail⟩ := allReadinessOk_tail h
    intro r t heq
    rcases hs : it.syscall with e | n
    · by_cases hwb : isWouldBlock (ioErrorFromNixError e) = true
      · simp only [tokioWriteLoop, hr, hs, hwb, if_true] at heq
        rcases hrec : tokioWriteLoop fd bufLen rest with _ | ⟨r0, t0⟩
        · rw [hrec] at heq; exact absurd heq (by simp)
        · rw [hrec] at heq
          simp only [Option.some.injEq, Prod.mk.injEq] at heq
          obtain ⟨-, ht⟩ := heq
          obtain ⟨h1, h2⟩ := ih htail r0 t0 hrec
          subst ht
          constructor
          · simp [List.count_cons, h1, leadingWouldBlocks, hs, hwb]
          · simp [List.count_cons, h2, leadingWouldBlocks, hs, hwb]
      · simp only [tokioWriteLoop, hr, hs, hwb, Bool.false_eq_true, if_false,
          Option.some.injEq, Prod.mk.injEq] at heq
        obtain ⟨-, ht⟩ := heq
        subst ht
        constructor <;> simp [List.count_cons, leadingWouldBlocks, hs, hwb]
    · simp only [tokioWriteLoop, hr, hs, Option.some.injEq, Prod.mk.injEq] at heq
      obtain ⟨-, ht⟩ := heq
      subst ht
      constructor <;> simp [List.count_cons, leadingWouldBlocks, hs]

/-- Syscall/wait counts for a completed async-std read call: one syscall
per attempt, one wait per would-block outcome. -/
lemma asyncStdReadLoop_counts (fd : Fd) (iters : List IoIter)
    (h : allReadinessOk iters) :
    ∀ r t, asyncStdReadLoop fd iters = some (r, t) →
      t.count (Effect.readSyscall fd) = leadingWouldBlocks iters + 1
      ∧ t.count (Effect.readinessWait fd) = leadingWouldBlocks iters := by
  induction iters with
  | nil => intro r t heq; simp [asyncStdReadLoop] at heq
  | cons it rest ih =>
    obtain ⟨hr, htail⟩ := allReadinessOk_tail h
    intro r t heq
    rcases hs : it.syscall with e | n
    · by_cases hwb : isWouldBlock (ioErrorFromNixError e) = true
      · simp only [asyncStdReadLoop, hr, hs, hwb, if_true] at heq
        rcases hrec : asyncStdReadLoop fd rest with _ | ⟨r0, t0⟩
        · rw [hrec] at heq; exact absurd heq (by simp)
        · rw [hrec] at heq
          simp only [Option.some.injEq, Prod.mk.injEq] at heq
          obtain ⟨-, ht⟩ := heq
          obtain ⟨h1, h2⟩ := ih htail r0 t0 hrec
          subst ht
          constructor
          · simp [List.count_cons, h1, leadingWouldBlocks, hs, hwb]
          · simp [List.count_cons, h2, leadingWouldBlocks, hs, hwb]
      · simp only [asyncStdReadLoop, hs, hwb, Bool.false_eq_true, if_false,
          Option.some.injEq, Prod.mk.injEq] at heq
        obtain ⟨-, ht⟩ := heq
        subst ht
        constructor <;> simp [List.count_cons, leadingWouldBlocks, hs, hwb]
    · simp only [asyncStdReadLoop, hs, Option.some.injEq, Prod.mk.injEq] at heq
      obtain ⟨-, ht⟩ := heq
      subst ht
      constructor <;> simp [List.count_cons, leadingWouldBlocks, hs]

/-- Syscall/wait counts for a completed async-std write call. -/
lemma asyncStdWriteLoop_counts (fd : Fd) (bufLen : Nat) (iters : List IoIter)
    (h : allReadinessOk iters) :
    ∀ r t, asyncStdWriteLoop fd bufLen iters = some (r, t) →
      t.count (Effect.writeSyscall fd) = leadingWouldBlocks iters + 1
      ∧ t.count (Effect.readinessWait fd) = leadingWouldBlocks iters := by
  induction iters with
  | nil => intro r t heq; simp [asyncStdWriteLoop] at heq
  | cons it rest ih =>
    obtain ⟨hr, htail⟩ := allReadinessOk_tail h
    intro r t heq
    rcases hs : it.syscall with e | n
    · by_cases hwb : isWouldBlock (ioErrorFromNixError e) = true
      · simp only [asyncStdWriteLoop, hr, hs, hwb, if_true] at heq
        rcases hrec : asyncStdWriteLoop fd bufLen rest with _ | ⟨r0, t0⟩
        · rw [hrec] at heq; exact absurd heq (by simp)
        · rw [hrec] at heq
          simp only [Option.some.injEq, Prod.mk.injEq] at heq
          obtain ⟨-, ht⟩ := heq
          obtain ⟨h1, h2⟩ := ih htail r0 t0 hrec
          subst ht
          constructor
          · simp [List.count_cons, h1, leadingWouldBlocks, hs, hwb]
          · simp [List.count_cons, h2, leadingWouldBlocks, hs, hwb]
      · simp only [asyncStdWriteLoop, hs, hwb, Bool.false_eq_true, if_false,
          Option.some.injEq, Prod.mk.injEq] at heq
        obtain ⟨-, ht⟩ := heq
        subst ht
        constructor <;> simp [List.count_cons, leadingWouldBlocks, hs, hwb]
    · simp only [asyncStdWriteLoop, hs, Option.some.injEq, Prod.mk.injEq] at heq
      obtain ⟨-, ht⟩ := heq
      subst ht
      constructor <;> simp [List.count_cons, leadingWouldBlocks, hs]

/-! ## Concrete sample environments -/

/-- A fully successful oracle environment: the socketpair is `(3, 4)`,
`fusermount3` resolves, the helper succeeds, the received message carries
descriptor `7`, and every later call succeeds. -/
def happyEnv : ConnEnv :=
  { socketpair := .ok (3, 4)
    whichFusermount := .ok "/usr/bin/fusermount3"
    spawnChild := .ok ()
    waitStatus := .ok true
    recv := .ok ⟨[.scmRights [7]]⟩
    closeFd := fun _ => .ok ()
    fcntlGetFl := fun _ => .ok 2
    fcntlSetFl := fun _ _ => .ok ()
    register := fun _ => .ok ()
    openDevFuse := .ok 7 }

/-- Like `happyEnv`, but the helper exits with a non-success status. -/
def helperFailEnv : ConnEnv := { happyEnv with waitStatus := .ok false }

/-- Like `happyEnv`, but every `F_GETFL` query fails with `EACCES`. -/
def fcntlFailEnv : ConnEnv :=
  { happyEnv with fcntlGetFl := fun _ => .error (.sys 13) }

/-- Recognizes the two `fcntl` status-flag effects. -/
def isFlagEffect : Effect → Bool
  | .fcntlGetFlCall _ => true
  | .fcntlSetFlCall _ _ => true
  | _ => false

/-- C1: when the helper exits with a failure status, both
`new_with_unprivileged` variants return the fatal error with the two
handshake socket descriptors (3 and 4) still open — no close syscall is
issued on either, contradicting the every-exit-path closure invariant; on
the fully successful path both are closed. -/
theorem c1_handshake_sockets_leak :
    ((tokioNewWithUnprivileged helperFailEnv "opts" "/mnt/x").1
        = .error (.kindOther "fusermount run failed")
      ∧ Effect.closeCall 3 ∉ (tokioNewWithUnprivileged helperFailEnv "opts" "/mnt/x").2
      ∧ Effect.closeCall 4 ∉ (tokioNewWithUnprivileged helperFailEnv "opts" "/mnt/x").2)
    ∧ ((asyncStdNewWithUnprivileged helperFailEnv "opts" "/mnt/x").1
        = .error (.kindOther "fusermount run failed")
      ∧ Effect.closeCall 3 ∉ (asyncStdNewWithUnprivileged helperFailEnv "opts" "/mnt/x").2
      ∧ Effect.closeCall 4 ∉ (asyncStdNewWithUnprivileged helperFailEnv "opts" "/mnt/x").2)
    ∧ (Effect.closeCall 3 ∈ (tokioNewWithUnprivileged happyEnv "opts" "/mnt/x").2
      ∧ Effect.closeCall 4 ∈ (tokioNewWithUnprivileged happyEnv "opts" "/mnt/x").2) := by
  decide

/-- C3 counterexample: a successful async-std acquisition (privileged and
unprivileged) performs no status-flag query or write-back at all — the
claimed query/OR/write-back sequence is absent from this variant. -/
theorem c3_counterexample :
    (asyncStdNew happyEnv).1 = .ok ⟨7⟩
    ∧ (asyncStdNew happyEnv).2.countP isFlagEffect = 0
    ∧ (asyncStdNewWithUnprivileged happyEnv "opts" "/mnt/x").1 = .ok ⟨7⟩
    ∧ (asyncStdNewWithUnprivileged happyEnv "opts" "/mnt/x").2.countP isFlagEffect = 0 := by
  decide

/-- C7 counterexample: the two variants are not equivalent — when the flag
query fails, the tokio variant's `new` fails while the async-std variant's
succeeds; and on identical oracle outcomes the read loops issue different
effect sequences (tokio waits for readiness before the first syscall,
async-std attempts the syscall first). -/
theorem c7_counterexample :
    (tokioNew fcntlFailEnv).1 ≠ (asyncStdNew fcntlFailEnv).1
    ∧ tokioReadLoop 7 [⟨.ok (), .ok 5⟩] ≠ asyncStdReadLoop 7 [⟨.ok (), .ok 5⟩] := by
  decide

/-- C4 counterexample: one logical read call that sees a would-block
performs two read syscalls, not one. -/
theorem c4_counterexample :
    tokioReadLoop 7 [⟨.ok (), .error (.sys 11)⟩, ⟨.ok (), .ok 5⟩]
      = some (.ok 5, [.readinessWait 7, .readSyscall 7,
                      .readinessWait 7, .readSyscall 7])
    ∧ List.count (Effect.readSyscall 7)
        [Effect.readinessWait 7, .readSyscall 7, .readinessWait 7, .readSyscall 7]
        ≠ 1 := by
  decide

/-- C9 counterexample: the code has no empty-buffer special case — with an
empty buffer, a write whose syscall reports `EBADF` returns that error
rather than byte count 0, and a would-block outcome makes the call retry
(two syscalls) instead of completing immediately. -/
theorem c9_counterexample :
    tokioWriteLoop 7 0 [⟨.ok (), .error (.sys 9)⟩]
      = some (.error (.rawOsError 9), [.readinessWait 7, .writeSyscall 7])
    ∧ tokioWriteLoop 7 0 [⟨.ok (), .error (.sys 11)⟩, ⟨.ok (), .ok 0⟩]
      = some (.ok 0, [.readinessWait 7, .writeSyscall 7,
                      .readinessWait 7, .writeSyscall 7]) := by
  decide

lemma map_outcome_ok_zero (x : Option (Except NixError Nat)) :
    x.map outcomeToResult = some (.ok 0) ↔ x = some (.ok 0) := by
  rcases x with _ | o
  · simp
  · rcases o with e | n <;> simp [outcomeToResult]

/-- C2: none of the four read/write loops ever returns a would-block error
to the caller (a would-block syscall outcome only causes a retry), and a
read call returns byte count 0 exactly when the first non-would-block read
syscall outcome is an orderly 0 — never because of a transient would-block. -/
theorem c2_wouldblock_never_surfaced :
    (∀ fd iters r t e, readinessNeverWouldBlock iters →
        tokioReadLoop fd iters = some (r, t) → r = .error e →
        isWouldBlock e = false)
    ∧ (∀ fd bufLen iters r t e, readinessNeverWouldBlock iters →
        tokioWriteLoop fd bufLen iters = some (r, t) → r = .error e →
        isWouldBlock e = false)
    ∧ (∀ fd iters r t e, readinessNeverWouldBlock iters →
        asyncStdReadLoop fd iters = some (r, t) → r = .error e →
        isWouldBlock e = false)
    ∧ (∀ fd bufLen iters r t e, readinessNeverWouldBlock iters →
        asyncStdWriteLoop fd bufLen iters = some (r, t) → r = .error e →
        isWouldBlock e = false)
    ∧ (∀ fd iters, allReadinessOk iters →
        ((tokioReadLoop fd iters).map Prod.fst = some (.ok 0)
          ↔ firstNonWouldBlock iters = some (.ok 0)))
    ∧ (∀ fd iters, allReadinessOk iters →
        ((asyncStdReadLoop fd iters).map Prod.fst = some (.ok 0)
          ↔ firstNonWouldBlock iters = some (.ok 0))) := by
  refine ⟨?_, ?_, ?_, ?_, ?_, ?_⟩
  · intro fd iters r t e h heq hre
    exact tokioReadLoop_no_wouldblock fd iters h r t e heq hre
  · intro fd bufLen iters r t e h heq hre
    exact tokioWriteLoop_no_wouldblock fd bufLen iters h r t e heq hre
  · intro fd iters r t e h heq hre
    exact asyncStdReadLoop_no_wouldblock fd iters h r t e heq hre
  · intro fd bufLen iters r t e h heq hre
    exact asyncStdWriteLoop_no_wouldblock fd bufLen iters h r t e heq hre
  · intro fd iters h
    rw [tokioReadLoop_result fd iters h]
    exact map_outcome_ok_zero _
  · intro fd iters h
    rw [asyncStdReadLoop_result fd iters h]
    exact map_outcome_ok_zero _

/-- Witness for C2: a read that sees one would-block then an orderly 0
returns 0, and one that sees a would-block then an `EIO` failure returns
a non-would-block error. -/
theorem c2_wouldblock_never_surfaced_witness :
    ((tokioReadLoop 7 [⟨.ok (), .error (.sys 11)⟩, ⟨.ok (), .ok 0⟩]).map Prod.fst
        = some (.ok 0))
    ∧ isWouldBlock (.rawOsError 5) = false :=
  ⟨(c2_wouldblock_never_surfaced.2.2.2.2.1 7
      [⟨.ok (), .error (.sys 11)⟩, ⟨.ok (), .ok 0⟩]
      (by simp [allReadinessOk])).mpr (by decide),
   c2_wouldblock_never_surfaced.1 7 [⟨.ok (), .error (.sys 5)⟩]
     (.error (.rawOsError 5)) [.readinessWait 7, .readSyscall 7] (.rawOsError 5)
     (by simp [readinessNeverWouldBlock]) (by decide) rfl⟩

/-- C4 (amended): each loop iteration performs exactly one syscall, so a
completed call performs one syscall more than the number of would-block
outcomes it saw — the tokio loops also wait once per iteration, the
async-std loops once per would-block — and the returned value is the single
non-would-block syscall outcome, passed through with no buffering. -/
theorem c4_amended_syscall_counts :
    (∀ fd iters r t, allReadinessOk iters →
        tokioReadLoop fd iters = some (r, t) →
        t.count (Effect.readSyscall fd) = leadingWouldBlocks iters + 1
        ∧ t.count (Effect.readinessWait fd) = leadingWouldBlocks iters + 1)
    ∧ (∀ fd bufLen iters r t, allReadinessOk iters →
        tokioWriteLoop fd bufLen iters = some (r, t) →
        t.count (Effect.writeSyscall fd) = leadingWouldBlocks iters + 1
        ∧ t.count (Effect.readinessWait fd) = leadingWouldBlocks iters + 1)
    ∧ (∀ fd iters r t, allReadinessOk iters →
        asyncStdReadLoop fd iters = some (r, t) →
        t.count (Effect.readSyscall fd) = leadingWouldBlocks iters + 1
        ∧ t.count (Effect.readinessWait fd) = leadingWouldBlocks iters)
    ∧ (∀ fd bufLen iters r t, allReadinessOk iters →
        asyncStdWriteLoop fd bufLen iters = some (r, t) →
        t.count (Effect.writeSyscall fd) = leadingWouldBlocks iters + 1
        ∧ t.count (Effect.readinessWait fd) = leadingWouldBlocks iters)
    ∧ (∀ fd iters, allReadinessOk iters →
        (tokioReadLoop fd iters).map Prod.fst
          = (firstNonWouldBlock iters).map outcomeToResult) :=
  ⟨fun fd iters r t h heq => tokioReadLoop_counts fd iters h r t heq,
   fun fd bufLen iters r t h heq =>
     tokioWriteLoop_counts fd bufLen iters h r t heq,
   fun fd iters r t h heq => asyncStdReadLoop_counts fd iters h r t heq,
   fun fd bufLen iters r t h heq =>
     asyncStdWriteLoop_counts fd bufLen iters h r t heq,
   fun fd iters h => tokioReadLoop_result fd iters h⟩

/-- Witness for C4 (amended) on a two-iteration read: two syscalls, two
waits, one leading would-block. -/
theorem c4_amended_syscall_counts_witness :
    List.count (Effect.readSyscall 7)
        [Effect.readinessWait 7, .readSyscall 7, .readinessWait 7, .readSyscall 7]
      = leadingWouldBlocks [⟨.ok (), .error (.sys 11)⟩, ⟨.ok (), .ok 5⟩] + 1
    ∧ List.count (Effect.readinessWait 7)
        [Effect.readinessWait 7, .readSyscall 7, .readinessWait 7, .readSyscall 7]
      = leadingWouldBlocks [⟨.ok (), .error (.sys 11)⟩, ⟨.ok (), .ok 5⟩] + 1 :=
  c4_amended_syscall_counts.1 7 [⟨.ok (), .error (.sys 11)⟩, ⟨.ok (), .ok 5⟩]
    (.ok 5) [.readinessWait 7, .readSyscall 7, .readinessWait 7, .readSyscall 7]
    (by simp [allReadinessOk]) (by decide)

/-- C9 (amended): write has no empty-buffer special case — the loop's
behavior is independent of the buffer — and it returns the first
non-would-block syscall outcome, so when the OS reports 0 for the
zero-length write on the first attempt the call completes with byte count
0 after exactly one syscall and no retry. -/
theorem c9_amended_empty_write :
    (∀ fd n m iters, tokioWriteLoop fd n iters = tokioWriteLoop fd m iters)
    ∧ (∀ fd n m iters,
        asyncStdWriteLoop fd n iters = asyncStdWriteLoop fd m iters)
    ∧ (∀ fd n it rest, it.readiness = .ok () → it.syscall = .ok 0 →
        tokioWriteLoop fd n (it :: rest)
          = some (.ok 0, [.readinessWait fd, .writeSyscall fd]))
    ∧ (∀ fd n it rest, it.syscall = .ok 0 →
        asyncStdWriteLoop fd n (it :: rest) = some (.ok 0, [.writeSyscall fd])) := by
  refine ⟨?_, ?_, ?_, ?_⟩
  · intro fd n m iters
    induction iters with
    | nil => rfl
    | cons it rest ih => simp only [tokioWriteLoop, ih]
  · intro fd n m iters
    induction iters with
    | nil => rfl
    | cons it rest ih => simp only [asyncStdWriteLoop, ih]
  · intro fd n it rest hr hs
    simp [tokioWriteLoop, hr, hs]
  · intro fd n it rest hs
    simp [asyncStdWriteLoop, hs]

/-- Witness for C9 (amended): an empty-buffer write whose first syscall
reports 0 completes with 0 after one syscall. -/
theorem c9_amended_empty_write_witness :
    tokioWriteLoop 7 0 [⟨.ok (), .ok 0⟩]
      = some (.ok 0, [.readinessWait 7, .writeSyscall 7])
    ∧ asyncStdWriteLoop 7 0 [⟨.ok (), .ok 0⟩] = some (.ok 0, [.writeSyscall 7]) :=
  ⟨c9_amended_empty_write.2.2.1 7 0 ⟨.ok (), .ok 0⟩ [] rfl rfl,
   c9_amended_empty_write.2.2.2 7 0 ⟨.ok (), .ok 0⟩ [] rfl⟩

/-- C7 (amended): provided the explicit fcntl non-blocking conversion —
performed only by the tokio variant — succeeds, and every readiness wait
succeeds, the two backend variants return the same success/error outcome
for `new`, `new_with_unprivileged`, `read` and `write`, and `drop` issues
the same close effect; their effect sequences still differ (fcntl calls,
and wait-before versus attempt-first ordering). -/
theorem c7_amended_backend_agreement :
    ∀ env : ConnEnv,
      (∀ fd, ∃ flags, env.fcntlGetFl fd = .ok flags) →
      (∀ fd flags, env.fcntlSetFl fd flags = .ok ()) →
      ((tokioNew env).1 = (asyncStdNew env).1
        ∧ (∀ o p, (tokioNewWithUnprivileged env o p).1
            = (asyncStdNewWithUnprivileged env o p).1)
        ∧ (∀ fd iters, allReadinessOk iters →
            (tokioReadLoop fd iters).map Prod.fst
              = (asyncStdReadLoop fd iters).map Prod.fst)
        ∧ (∀ fd bufLen iters, allReadinessOk iters →
            (tokioWriteLoop fd bufLen iters).map Prod.fst
              = (asyncStdWriteLoop fd bufLen iters).map Prod.fst)
        ∧ (∀ c, tokioDrop c = asyncStdDrop c)) := by
  intro env hget hset
  have hsd : ∀ fd, ∃ tnb, setFdNonBlocking env fd = (.ok (), tnb) := by
    intro fd
    obtain ⟨flags, hg⟩ := hget fd
    exact ⟨[.fcntlGetFlCall fd, .fcntlSetFlCall fd (flags ||| oNonblock)],
      by simp [setFdNonBlocking, hg, hset fd (flags ||| oNonblock)]⟩
  refine ⟨?_, ?_, ?_, ?_, fun c => rfl⟩
  · rcases ho : env.openDevFuse with e | fd
    · simp [tokioNew, asyncStdNew, ho]
    · obtain ⟨tnb, hsdf⟩ := hsd fd
      rcases hreg : env.register fd with e | u
      · simp [tokioNew, asyncStdNew, ho, hsdf, hreg]
      · simp [tokioNew, asyncStdNew, ho, hsdf, hreg]
  · intro o p
    rcases hsp : env.socketpair with e | ⟨fd0, fd1⟩
    · simp [tokioNewWithUnprivileged, asyncStdNewWithUnprivileged, hsp]
    · rcases hw : env.whichFusermount with e | path
      · simp [tokioNewWithUnprivileged, asyncStdNewWithUnprivileged, hsp, hw]
      · rcases hspawn : env.spawnChild with e | u
        · simp [tokioNewWithUnprivileged, asyncStdNewWithUnprivileged,
            hsp, hw, hspawn]
        · rcases hwait : env.waitStatus with e | success
          · simp [tokioNewWithUnprivileged, asyncStdNewWithUnprivileged,
              hsp, hw, hspawn, hwait]
          · cases success
            · simp [tokioNewWithUnprivileged, asyncStdNewWithUnprivileged,
                hsp, hw, hspawn, hwait]
            · rcases hrecv : recvFuseFd env with e | fd
              · simp [tokioNewWithUnprivileged, asyncStdNewWithUnprivileged,
                  hsp, hw, hspawn, hwait, hrecv]
              · rcases hc0 : env.closeFd fd0 with e | u0
                · simp [tokioNewWithUnprivileged, asyncStdNewWithUnprivileged,
                    hsp, hw, hspawn, hwait, hrecv, hc0]
                · rcases hc1 : env.closeFd fd1 with e | u1
                  · simp [tokioNewWithUnprivileged, asyncStdNewWithUnprivileged,
                      hsp, hw, hspawn, hwait, hrecv, hc0, hc1]
                  · obtain ⟨tnb, hsdf⟩ := hsd fd
                    rcases hreg : env.register fd with e | u2
                    · simp [tokioNewWithUnprivileged,
                        asyncStdNewWithUnprivileged, hsp, hw, hspawn, hwait,
                        hrecv, hc0, hc1, hsdf, hreg]
                    · simp [tokioNewWithUnprivileged,
                        asyncStdNewWithUnprivileged, hsp, hw, hspawn, hwait,
                        hrecv, hc0, hc1, hsdf, hreg]
  · intro fd iters h
    rw [tokioReadLoop_result fd iters h, asyncStdReadLoop_result fd iters h]
  · intro fd bufLen iters h
    rw [tokioWriteLoop_result fd bufLen iters h,
      asyncStdWriteLoop_result fd bufLen iters h]

/-- Witness for C7 (amended) at the fully successful environment. -/
theorem c7_amended_backend_agreement_witness :
    (tokioNew happyEnv).1 = (asyncStdNew happyEnv).1
    ∧ (tokioNewWithUnprivileged happyEnv "opts" "/mnt/x").1
        = (asyncStdNewWithUnprivileged happyEnv "opts" "/mnt/x").1 :=
  have h := c7_amended_backend_agreement happyEnv
    (fun _ => ⟨2, rfl⟩) (fun _ _ => rfl)
  ⟨h.1, h.2.1 "opts" "/mnt/x"⟩

/-- C3 (amended): the tokio variant performs the explicit flag query,
ORs in the non-blocking bit and writes the flags back before the
Connection is constructed, and any flag query/set failure fails the
acquisition; the async-std variant performs no explicit flag manipulation
in this code — it delegates the non-blocking conversion to the runtime's
`Async` wrapper constructor, whose failure also fails the acquisition. -/
theorem c3_amended_nonblocking :
    (∀ env fd flags, env.openDevFuse = .ok fd →
        env.fcntlGetFl fd = .ok flags →
        ∀ c t, tokioNew env = (.ok c, t) →
          c.fd = fd ∧
          t = [.openDevFuseCall, .fcntlGetFlCall fd,
               .fcntlSetFlCall fd (flags ||| oNonblock), .registerCall fd])
    ∧ (∀ env fd e, env.openDevFuse = .ok fd → env.fcntlGetFl fd = .error e →
        (tokioNew env).1 = .error (ioErrorFromNixError e))
    ∧ (∀ env fd flags e, env.openDevFuse = .ok fd →
        env.fcntlGetFl fd = .ok flags →
        env.fcntlSetFl fd (flags ||| oNonblock) = .error e →
        (tokioNew env).1 = .error (ioErrorFromNixError e))
    ∧ (∀ env o p c t, tokioNewWithUnprivileged env o p = (.ok c, t) →
        ∃ pre flags, env.fcntlGetFl c.fd = .ok flags ∧
          t = pre ++ [.fcntlGetFlCall c.fd,
                      .fcntlSetFlCall c.fd (flags ||| oNonblock),
                      .registerCall c.fd])
    ∧ (∀ env fd, env.openDevFuse = .ok fd →
        (asyncStdNew env).2.countP isFlagEffect = 0
        ∧ (∀ e, env.register fd = .error e → (asyncStdNew env).1 = .error e)
        ∧ (env.register fd = .ok () → (asyncStdNew env).1 = .ok ⟨fd⟩)) := by
  refine ⟨?_, ?_, ?_, ?_, ?_⟩
  · intro env fd flags ho hg c t heq
    obtain ⟨cfd⟩ := c
    rcases hs : env.fcntlSetFl fd (flags ||| oNonblock) with e | u
    · simp [tokioNew, ho, setFdNonBlocking, hg, hs] at heq
    · rcases hreg : env.register fd with e | u2
      · simp [tokioNew, ho, setFdNonBlocking, hg, hs, hreg] at heq
      · simp only [tokioNew, ho, setFdNonBlocking, hg, hs, hreg,
          Prod.mk.injEq, Except.ok.injEq, FuseConnection.mk.injEq] at heq
        obtain ⟨rfl, rfl⟩ := heq
        exact ⟨rfl, rfl⟩
  · intro env fd e ho hg
    simp [tokioNew, ho, setFdNonBlocking, hg]
  · intro env fd flags e ho hg hs
    simp [tokioNew, ho, setFdNonBlocking, hg, hs]
  · intro env o p c t heq
    obtain ⟨cfd⟩ := c
    rcases hsp : env.socketpair with e | ⟨fd0, fd1⟩
    · simp [tokioNewWithUnprivileged, hsp] at heq
    · rcases hw : env.whichFusermount with e | path
      · simp [tokioNewWithUnprivileged, hsp, hw] at heq
      · rcases hspawn : env.spawnChild with e | u
        · simp [tokioNewWithUnprivileged, hsp, hw, hspawn] at heq
        · rcases hwait : env.waitStatus with e | success
          · simp [tokioNewWithUnprivileged, hsp, hw, hspawn, hwait] at heq
          · cases success
            · simp [tokioNewWithUnprivileged, hsp, hw, hspawn, hwait] at heq
            · rcases hrecv : recvFuseFd env with e | fd
              · simp [tokioNewWithUnprivileged, hsp, hw, hspawn, hwait,
                  hrecv] at heq
              · rcases hc0 : env.closeFd fd0 with e | u0
                · simp [tokioNewWithUnprivileged, hsp, hw, hspawn, hwait,
                    hrecv, hc0] at heq
                · rcases hc1 : env.closeFd fd1 with e | u1
                  · simp [tokioNewWithUnprivileged, hsp, hw, hspawn, hwait,
                      hrecv, hc0, hc1] at heq
                  · rcases hg : env.fcntlGetFl fd with e | flags
                    · simp [tokioNewWithUnprivileged, hsp, hw, hspawn, hwait,
                        hrecv, hc0, hc1, setFdNonBlocking, hg] at heq
                    · rcases hs : env.fcntlSetFl fd (flags ||| oNonblock)
                        with e | u2
                      · simp [tokioNewWithUnprivileged, hsp, hw, hspawn,
                          hwait, hrecv, hc0, hc1, setFdNonBlocking, hg,
                          hs] at heq
                      · rcases hreg : env.register fd with e | u3
                        · simp [tokioNewWithUnprivileged, hsp, hw, hspawn,
                            hwait, hrecv, hc0, hc1, setFdNonBlocking, hg,
                            hs, hreg] at heq
                        · simp only [tokioNewWithUnprivileged, hsp, hw,
                            hspawn, hwait, hrecv, hc0, hc1, setFdNonBlocking,
                            hg, hs, hreg, Prod.mk.injEq, Except.ok.injEq,
                            FuseConnection.mk.injEq] at heq
                          obtain ⟨rfl, rfl⟩ := heq
                          refine ⟨[.socketpairCall, .whichCall "fusermount3",
                            .spawnCall path "_FUSE_COMMFD" (toString fd0)
                              ["-o", o, p],
                            .waitCall, .recvmsgCall fd1, .closeCall fd0,
                            .closeCall fd1], flags, hg, ?_⟩
                          simp
  · intro env fd ho
    refine ⟨?_, ?_, ?_⟩
    · rcases hreg : env.register fd with e | u <;>
        simp [asyncStdNew, ho, hreg, List.countP_cons, isFlagEffect,
          List.countP_nil]
    · intro e hreg
      simp [asyncStdNew, ho, hreg]
    · intro hreg
      simp [asyncStdNew, ho, hreg]

/-- Witness for C3 (amended): at the fully successful environment the
tokio `new` trace is exactly open, flag-get, flag-set (with the
non-blocking bit ORed in), register. -/
theorem c3_amended_nonblocking_witness :
    FuseConnection.fd ⟨7⟩ = 7
    ∧ [Effect.openDevFuseCall, .fcntlGetFlCall 7,
       .fcntlSetFlCall 7 (2 ||| oNonblock), .registerCall 7]
      = [Effect.openDevFuseCall, .fcntlGetFlCall 7,
         .fcntlSetFlCall 7 (2 ||| oNonblock), .registerCall 7] :=
  c3_amended_nonblocking.1 happyEnv 7 2 rfl rfl ⟨7⟩
    [Effect.openDevFuseCall, .fcntlGetFlCall 7,
     .fcntlSetFlCall 7 (2 ||| oNonblock), .registerCall 7] (by decide)

/-- C5: once the socketpair and the lookup succeed, the unprivileged
acquisition looks up the helper by the fixed name `fusermount3`, spawns
the found binary with environment variable `_FUSE_COMMFD` set to the
decimal number of `fd0` and arguments `-o`, the option string, the mount
path, in that order; and if the helper exits with a non-success status the
call returns the fatal "fusermount run failed" error, performs no receive,
and produces no Connection. -/
theorem c5_fusermount_invocation :
    ∀ (env : ConnEnv) (o p : String) (fd0 fd1 : Fd) (path : String),
      env.socketpair = .ok (fd0, fd1) →
      env.whichFusermount = .ok path →
      (Effect.whichCall "fusermount3" ∈ (tokioNewWithUnprivileged env o p).2
        ∧ (env.spawnChild = .ok () →
            Effect.spawnCall path "_FUSE_COMMFD" (toString fd0) ["-o", o, p]
              ∈ (tokioNewWithUnprivileged env o p).2))
      ∧ (env.spawnChild = .ok () → env.waitStatus = .ok false →
          (tokioNewWithUnprivileged env o p).1
              = .error (.kindOther "fusermount run failed")
          ∧ (∀ f, Effect.recvmsgCall f ∉ (tokioNewWithUnprivileged env o p).2)
          ∧ ∀ c, (tokioNewWithUnprivileged env o p).1 ≠ .ok c) := by
  intro env o p fd0 fd1 path hsp hw
  constructor
  · constructor
    · rcases hspawn : env.spawnChild with e | u
      · simp [tokioNewWithUnprivileged, hsp, hw, hspawn]
      · rcases hwait : env.waitStatus with e | success
        · simp [tokioNewWithUnprivileged, hsp, hw, hspawn, hwait]
        · cases success
          · simp [tokioNewWithUnprivileged, hsp, hw, hspawn, hwait]
          · rcases hrecv : recvFuseFd env with e | fd
            · simp [tokioNewWithUnprivileged, hsp, hw, hspawn, hwait, hrecv]
            · rcases hc0 : env.closeFd fd0 with e | u0
              · simp [tokioNewWithUnprivileged, hsp, hw, hspawn, hwait,
                  hrecv, hc0]
              · rcases hc1 : env.closeFd fd1 with e | u1
                · simp [tokioNewWithUnprivileged, hsp, hw, hspawn, hwait,
                    hrecv, hc0, hc1]
                · rcases hnb : setFdNonBlocking env fd with ⟨res, tnb⟩
                  rcases res with e | u2
                  · simp [tokioNewWithUnprivileged, hsp, hw, hspawn, hwait,
                      hrecv, hc0, hc1, hnb]
                  · rcases hreg : env.register fd with e | u3 <;>
                      simp [tokioNewWithUnprivileged, hsp, hw, hspawn,
                        hwait, hrecv, hc0, hc1, hnb, hreg]
    · intro hspawn
      rcases hwait : env.waitStatus with e | success
      · simp [tokioNewWithUnprivileged, hsp, hw, hspawn, hwait]
      · cases success
        · simp [tokioNewWithUnprivileged, hsp, hw, hspawn, hwait]
        · rcases hrecv : recvFuseFd env with e | fd
          · simp [tokioNewWithUnprivileged, hsp, hw, hspawn, hwait, hrecv]
          · rcases hc0 : env.closeFd fd0 with e | u0
            · simp [tokioNewWithUnprivileged, hsp, hw, hspawn, hwait,
                hrecv, hc0]
            · rcases hc1 : env.closeFd fd1 with e | u1
              · simp [tokioNewWithUnprivileged, hsp, hw, hspawn, hwait,
                  hrecv, hc0, hc1]
              · rcases hnb : setFdNonBlocking env fd with ⟨res, tnb⟩
                rcases res with e | u2
                · simp [tokioNewWithUnprivileged, hsp, hw, hspawn, hwait,
                    hrecv, hc0, hc1, hnb]
                · rcases hreg : env.register fd with e | u3 <;>
                    simp [tokioNewWithUnprivileged, hsp, hw, hspawn, hwait,
                      hrecv, hc0, hc1, hnb, hreg]
  · intro hspawn hwait
    have hcomp : tokioNewWithUnprivileged env o p
        = (.error (.kindOther "fusermount run failed"),
           [.socketpairCall, .whichCall "fusermount3",
            .spawnCall path "_FUSE_COMMFD" (toString fd0) ["-o", o, p],
            .waitCall]) := by
      simp [tokioNewWithUnprivileged, hsp, hw, hspawn, hwait]
    rw [hcomp]
    refine ⟨rfl, ?_, ?_⟩
    · intro f
      simp
    · intro c
      simp

/-- Witness for C5 on the spec's scenario: options
`default_permissions,allow_other`, mount point `/mnt/x`, helper exiting
with status 1. -/
theorem c5_fusermount_invocation_witness :
    Effect.spawnCall "/usr/bin/fusermount3" "_FUSE_COMMFD" "3"
        ["-o", "default_permissions,allow_other", "/mnt/x"]
      ∈ (tokioNewWithUnprivileged helperFailEnv
          "default_permissions,allow_other" "/mnt/x").2
    ∧ (tokioNewWithUnprivileged helperFailEnv
          "default_permissions,allow_other" "/mnt/x").1
        = .error (.kindOther "fusermount run failed") :=
  have h := c5_fusermount_invocation helperFailEnv
    "default_permissions,allow_other" "/mnt/x" 3 4 "/usr/bin/fusermount3"
    rfl rfl
  ⟨h.1.2 rfl, (h.2 rfl rfl).1⟩

/-- C6: the receive step fails exactly when the receive syscall fails,
when the first ancillary item of the received message is not a transferred
descriptor list, or when that list is empty; otherwise its first
descriptor is the one a successfully built Connection wraps, in both
variants. -/
theorem c6_ancillary_receive :
    ∀ env : ConnEnv,
      (∀ e, env.recv = .error e →
        recvFuseFd env = .error (ioErrorFromNixError e))
      ∧ (∀ msg, env.recv = .ok msg → msg.cmsgs.head? = none →
          recvFuseFd env = .error (.kindOther "get fuse fd failed"))
      ∧ (∀ msg, env.recv = .ok msg → msg.cmsgs.head? = some .otherCmsg →
          recvFuseFd env = .error (.kindOther "get fuse fd failed"))
      ∧ (∀ msg, env.recv = .ok msg →
          msg.cmsgs.head? = some (.scmRights []) →
          recvFuseFd env = .error (.kindOther "no fuse fd"))
      ∧ (∀ msg f rest, env.recv = .ok msg →
          msg.cmsgs.head? = some (.scmRights (f :: rest)) →
          recvFuseFd env = .ok f)
      ∧ (∀ o p c t f, recvFuseFd env = .ok f →
          tokioNewWithUnprivileged env o p = (.ok c, t) → c.fd = f)
      ∧ (∀ o p c t f, recvFuseFd env = .ok f →
          asyncStdNewWithUnprivileged env o p = (.ok c, t) → c.fd = f) := by
  intro env
  refine ⟨?_, ?_, ?_, ?_, ?_, ?_, ?_⟩
  · intro e hrecv
    simp [recvFuseFd, hrecv]
  · intro msg hrecv hh
    simp [recvFuseFd, hrecv, hh]
  · intro msg hrecv hh
    simp [recvFuseFd, hrecv, hh]
  · intro msg hrecv hh
    simp [recvFuseFd, hrecv, hh]
  · intro msg f rest hrecv hh
    simp [recvFuseFd, hrecv, hh]
  · intro o p c t f hf heq
    obtain ⟨cfd⟩ := c
    rcases hsp : env.socketpair with e | ⟨fd0, fd1⟩
    · simp [tokioNewWithUnprivileged, hsp] at heq
    · rcases hw : env.whichFusermount with e | path
      · simp [tokioNewWithUnprivileged, hsp, hw] at heq
      · rcases hspawn : env.spawnChild with e | u
        · simp [tokioNewWithUnprivileged, hsp, hw, hspawn] at heq
        · rcases hwait : env.waitStatus with e | success
          · simp [tokioNewWithUnprivileged, hsp, hw, hspawn, hwait] at heq
          · cases success
            · simp [tokioNewWithUnprivileged, hsp, hw, hspawn, hwait] at heq
            · rcases hc0 : env.closeFd fd0 with e | u0
              · simp [tokioNewWithUnprivileged, hsp, hw, hspawn, hwait,
                  hf, hc0] at heq
              · rcases hc1 : env.closeFd fd1 with e | u1
                · simp [tokioNewWithUnprivileged, hsp, hw, hspawn, hwait,
                    hf, hc0, hc1] at heq
                · rcases hnb : setFdNonBlocking env f with ⟨res, tnb⟩
                  rcases res with e | u2
                  · simp [tokioNewWithUnprivileged, hsp, hw, hspawn, hwait,
                      hf, hc0, hc1, hnb] at heq
                  · rcases hreg : env.register f with e | u3
                    · simp [tokioNewWithUnprivileged, hsp, hw, hspawn,
                        hwait, hf, hc0, hc1, hnb, hreg] at heq
                    · simp only [tokioNewWithUnprivileged, hsp, hw, hspawn,
                        hwait, hf, hc0, hc1, hnb, hreg, Bool.true_eq_false,
                        if_false, Prod.mk.injEq, Except.ok.injEq,
                        FuseConnection.mk.injEq] at heq
                      exact heq.1.symm
  · intro o p c t f hf heq
    obtain ⟨cfd⟩ := c
    rcases hsp : env.socketpair with e | ⟨fd0, fd1⟩
    · simp [asyncStdNewWithUnprivileged, hsp] at heq
    · rcases hw : env.whichFusermount with e | path
      · simp [asyncStdNewWithUnprivileged, hsp, hw] at heq
      · rcases hspawn : env.spawnChild with e | u
        · simp [asyncStdNewWithUnprivileged, hsp, hw, hspawn] at heq
        · rcases hwait : env.waitStatus with e | success
          · simp [asyncStdNewWithUnprivileged, hsp, hw, hspawn, hwait] at heq
          · cases success
            · simp [asyncStdNewWithUnprivileged, hsp, hw, hspawn,
                hwait] at heq
            · rcases hc0 : env.closeFd fd0 with e | u0
              · simp [asyncStdNewWithUnprivileged, hsp, hw, hspawn, hwait,
                  hf, hc0] at heq
              · rcases hc1 : env.closeFd fd1 with e | u1
                · simp [asyncStdNewWithUnprivileged, hsp, hw, hspawn, hwait,
                    hf, hc0, hc1] at heq
                · rcases hreg : env.register f with e | u3
                  · simp [asyncStdNewWithUnprivileged, hsp, hw, hspawn,
                      hwait, hf, hc0, hc1, hreg] at heq
                  · simp only [asyncStdNewWithUnprivileged, hsp, hw, hspawn,
                      hwait, hf, hc0, hc1, hreg, Bool.true_eq_false,
                      if_false, Prod.mk.injEq, Except.ok.injEq,
                      FuseConnection.mk.injEq] at heq
                    exact heq.1.symm

/-- Witness for C6 at the fully successful environment: the received
message's single `ScmRights` item carries descriptor 7, which the built
Connection wraps. -/
theorem c6_ancillary_receive_witness :
    recvFuseFd happyEnv = .ok 7
    ∧ FuseConnection.fd ⟨7⟩ = 7 :=
  have h := c6_ancillary_receive happyEnv
  have hr : recvFuseFd happyEnv = .ok 7 :=
    h.2.2.2.2.1 ⟨[.scmRights [7]]⟩ 7 [] rfl rfl
  ⟨hr, h.2.2.2.2.2.1 "opts" "/mnt/x" ⟨7⟩
    (tokioNewWithUnprivileged happyEnv "opts" "/mnt/x").2 7 hr (by decide)⟩

/-- Witness for C8 at a concrete instance: two read tasks and one write
task, at the state reached by task 0 acquiring the read gate. -/
theorem c8_direction_gates_witness :
    let dirs : Nat → Dir := fun i => if i = 2 then .writeDir else .readDir
    let s := setLock (setPhase (initGateSys dirs) 0 .critical) .readDir (some 0)
    (∀ i j, (s.tasks i).2 = .critical → (s.tasks j).2 = .critical →
      (s.tasks i).1 = (s.tasks j).1 → i = j)
    ∧ (∀ i, (s.tasks i).2 = .waiting → lockOf s (s.tasks i).1 = none →
        GateStep s (setLock (setPhase s i .critical) (s.tasks i).1 (some i))) := by
  intro dirs s
  have hstep : GateStep (initGateSys dirs) s := by
    have h := GateStep.acquire (initGateSys dirs) 0 (by simp [initGateSys]) (by rfl)
    simpa [initGateSys] using h
  exact c8_direction_gates dirs s (Relation.ReflTransGen.single hstep)

end Fuse3
